import Mathlib

/-!
Verification of the DigitalTwinServer repository (FastAPI digital-twin demo).

The streaming core in `src/main.py` keeps a process-global `engine_data`
dict (latest energy/temperature sample), a deque `engine_history` with
`maxlen=60`, and a websocket loop that, per message, overwrites the two
fields of `engine_data`, appends a copy to `engine_history`, computes
analytics (rolling average, `temp + 50` overheat prediction, `> 550`
alert) and sends them back; any exception terminates the session.

The batch path in `src/utils/dataset_loader.py` loads a rectangular
numeric table, computes per-row RUL = (max cycle of the row's unit) -
(row's cycle), per-(unit, sensor) least-squares slopes, and aggregates a
summary; `dataset_summary` converts every exception into an
`{error: ...}` record.

Numbers are modelled as rationals (`ℚ`): every constant and every
arithmetic fact the claims exercise is exact, so the rational model
coincides with the Python float behaviour on all inputs considered.
-/

/-- A JSON scalar as it arrives on the websocket: either a number or a
non-numeric value (modelled by a string), enough to distinguish the
numeric/non-numeric behaviours of the handler. -/
inductive JVal : Type
  | num (q : ℚ)
  | str (s : String)
deriving DecidableEq

/-- The process-global `engine_data` dict of `src/main.py` (keys
`energy` and `temp`). -/
structure EngineData where
  energy : JVal
  temp : JVal
deriving DecidableEq

/-- `engine_data = {"energy": 500, "temp": 300}` (src/main.py lines 29-32). -/
def initial_engine_data : EngineData := ⟨.num 500, .num 300⟩

/-- An inbound websocket JSON message: each field is present (`some`) or
absent (`none`); `msg["k"]` on an absent key raises `KeyError`. -/
structure WsMsg where
  energy : Option JVal
  temp : Option JVal

/-- The JSON payload sent back by the websocket handler
(src/main.py lines 108-114). -/
structure WsResponse where
  energy : JVal
  temp : JVal
  avg_temp : ℚ
  predicted_overheat : ℚ
  alert : Bool
deriving DecidableEq

/-- `engine_history.append x` for `engine_history = deque(maxlen=60)`
(src/main.py line 26): append at the back, discarding the front element
first when the deque is full. -/
def windowPush {α : Type} (w : List α) (x : α) : List α :=
  if w.length < 60 then w ++ [x] else w.drop 1 ++ [x]

/-- The window contents after pushing the samples of `xs` in order into
an initially empty history. -/
def windowOfPushes {α : Type} (xs : List α) : List α :=
  xs.foldl windowPush []

/-- `sum(d['temp'] for d in engine_history)`: Python's left fold starting
from `0`; adding a non-numeric value raises `TypeError` (`none`). -/
def sumTemps (hist : List EngineData) : Option ℚ :=
  hist.foldl
    (fun acc d =>
      acc.bind (fun a => match d.temp with
        | .num t => some (a + t)
        | .str _ => none))
    (some 0)

/-- One iteration of the websocket receive loop of `websocket_endpoint`
(src/main.py lines 95-117), given the shared state and the received
message.  Returns the shared state as left behind and `some response`
when the iteration completed, `none` when an exception was caught (the
session breaks out of the loop).  The mutations happen in source order:
`engine_data["energy"]`, then `engine_data["temp"]` (KeyError on an
absent key leaves the earlier assignment in place), then the history
append, then the analytics (where a non-numeric temperature raises). -/
def websocket_step (st : EngineData) (hist : List EngineData) (msg : WsMsg) :
    EngineData × List EngineData × Option WsResponse :=
  match msg.energy with
  | none => (st, hist, none)
  | some e =>
    match msg.temp with
    | none => (⟨e, st.temp⟩, hist, none)
    | some t =>
      let st2 : EngineData := ⟨e, t⟩
      let hist2 := windowPush hist st2
      match sumTemps hist2 with
      | none => (st2, hist2, none)
      | some s =>
        let avg := s / (hist2.length : ℚ)
        match t with
        | .str _ => (st2, hist2, none)
        | .num tn =>
          (st2, hist2, some ⟨e, t, avg, tn + 50, decide (tn + 50 > 550)⟩)

/-- The process-global state evolved over a sequence of received
messages (the state is shared across sessions, so it is simply folded
over every message any session processes). -/
def run_messages (st : EngineData) (hist : List EngineData) (msgs : List WsMsg) :
    EngineData × List EngineData :=
  msgs.foldl (fun p m => let r := websocket_step p.1 p.2 m; (r.1, r.2.1)) (st, hist)

/-- The `GET /engine` endpoint (src/main.py lines 43-45): returns the
`engine_data` dict as the JSON payload, unconditionally. -/
def get_engine_data (st : EngineData) : EngineData := st

/-- The `avg_temp` value computed by the `/dashboard` endpoint
(src/main.py lines 63-71): `sum(temps)/len(temps)` inside the
`if engine_history:` branch, the literal `0` in the `else` branch;
`none` models the `TypeError` when a stored temperature is non-numeric. -/
def dashboard_avg (hist : List EngineData) : Option ℚ :=
  if hist.isEmpty then some 0
  else (sumTemps hist).map (fun s => s / (hist.length : ℚ))

/-- Written from the spec's words, for comparison with the code: the
arithmetic mean of a list of temperature values. -/
def specAvgTemperature (ts : List ℚ) : ℚ := ts.sum / (ts.length : ℚ)

/-- The numeric temperatures of the window, `none` as soon as one stored
temperature is non-numeric. -/
def tempsOf : List EngineData → Option (List ℚ)
  | [] => some []
  | d :: rest =>
    match d.temp, tempsOf rest with
    | .num q, some ts => some (q :: ts)
    | _, _ => none

/-- One row of the loaded dataset (src/utils/dataset_loader.py): column
0 is the unit id, column 1 the cycle, the remaining columns are sensor
readings.  Rectangularity means all rows have the same number of
sensors. -/
structure Row where
  unit : ℚ
  cycle : ℚ
  sensors : List ℚ
deriving DecidableEq

/-- `df.groupby(unit_id_col)[cycle_col].max()` looked up at key `u`:
the maximum cycle among the rows of unit `u` (`none` when no row has
that unit — the lookup is only ever performed at keys present in the
frame). -/
def maxCyclePerUnit (rows : List Row) (u : ℚ) : Option ℚ :=
  ((rows.filter (fun r => r.unit = u)).map Row.cycle).maximum

/-- `compute_rul(row)` = `max_cycle_per_unit[unit] - cycle`
(src/utils/dataset_loader.py lines 74-77); the `getD 0` default is never
exercised for a row of the frame, since its unit is present in the
groupby result. -/
def rulOfRow (rows : List Row) (r : Row) : ℚ :=
  (maxCyclePerUnit rows r.unit).getD 0 - r.cycle

/-- The `RUL` column added by `df_enrich.apply(compute_rul, axis=1)`. -/
def rulValues (rows : List Row) : List ℚ :=
  rows.map (rulOfRow rows)

/-- The distinct values of a column in order of first appearance
(`pandas.Series.unique`). -/
def uniqKeys (l : List ℚ) : List ℚ :=
  l.foldl (fun acc u => if u ∈ acc then acc else acc ++ [u]) []

/-- `df[unit_id_col].nunique()`. -/
def unitCount (rows : List Row) : Nat :=
  (uniqKeys (rows.map Row.unit)).length

/-- The slope of the degree-1 least-squares fit `np.polyfit(X, y, 1)[0]`
in closed form: `(n Σxy − Σx Σy) / (n Σx² − (Σx)²)`. -/
def olsSlope (xs ys : List ℚ) : ℚ :=
  let n : ℚ := xs.length
  let sx := xs.sum
  let sy := ys.sum
  let sxy := (List.zipWith (fun a b => a * b) xs ys).sum
  let sxx := (xs.map (fun x => x * x)).sum
  (n * sxy - sx * sy) / (n * sxx - sx * sx)

/-- The sensor-degradation slopes collected by the nested loop of
`compute_engine_degradation` (src/utils/dataset_loader.py lines 82-94):
for each unit in order of first appearance and each sensor column, the
OLS slope of sensor value against cycle, skipped when the unit has
fewer than two rows.  (The `np.isnan` filtering is the identity here:
the rational model has no missing values.) -/
def degradationSlopes (rows : List Row) (numSensors : Nat) : List ℚ :=
  (uniqKeys (rows.map Row.unit)).flatMap (fun u =>
    let unitData := rows.filter (fun r => r.unit = u)
    let X := unitData.map Row.cycle
    (List.range numSensors).flatMap (fun j =>
      let y := unitData.map (fun r => r.sensors.getD j 0)
      if 1 < X.length then [olsSlope X y] else []))

/-- `np.mean` of a list of rationals. -/
def meanQ (l : List ℚ) : ℚ := l.sum / (l.length : ℚ)

/-- The summary dict built by `compute_engine_degradation`
(src/utils/dataset_loader.py lines 97-105). -/
structure DegSummary where
  rows : Nat
  units : Nat
  mean_rul : ℚ
  max_rul : Option ℚ
  min_rul : Option ℚ
  mean_sensor_degradation_slope : Option ℚ
  num_sensors : Nat
deriving DecidableEq

/-- `sensor_cols = list(range(2, df.shape[1]))` for a rectangular frame:
the number of sensor columns, read off the first row. -/
def dfNumSensors (rows : List Row) : Nat :=
  (rows.head?.map (fun r => r.sensors.length)).getD 0

/-- The summary value of `compute_engine_degradation(df)` with the
default column arguments. -/
def compute_engine_degradation (rows : List Row) : DegSummary :=
  let ruls := rulValues rows
  let ds := degradationSlopes rows (dfNumSensors rows)
  ⟨rows.length, unitCount rows, meanQ ruls, ruls.maximum, ruls.minimum,
    if ds.isEmpty then none else some (meanQ ds), dfNumSensors rows⟩

/-- `compute_engine_degradation` as seen by `dataset_summary`'s
second `try` block: on an empty frame `np.max` raises (`ValueError:
zero-size array to reduction operation`), which the caller catches;
otherwise the summary is produced. -/
def compute_engine_degradation_result (rows : List Row) : Except String DegSummary :=
  if rows.isEmpty then .error "zero-size array to reduction operation"
  else .ok (compute_engine_degradation rows)

/-- `load_aircraft_dataset(path)` (src/utils/dataset_loader.py lines
13-40) over an abstract file system `fs` mapping a path to the loaded
frame: a missing path raises `FileNotFoundError: File not found: path`,
otherwise the parsed frame is returned. -/
def load_aircraft_dataset (fs : String → Option (List Row)) (path : String) :
    Except String (List Row) :=
  match fs path with
  | none => .error ("File not found: " ++ path)
  | some df => .ok df

/-- The value returned by `dataset_summary`: either a summary dict or an
`{"error": msg}` dict — never a raised exception. -/
inductive SummaryOrError : Type
  | summary (s : DegSummary)
  | err (msg : String)
deriving DecidableEq

/-- `dataset_summary(path)` (src/utils/dataset_loader.py lines 110-128):
both the load and the computation run under `try`, and each exception is
converted into an `{"error": ...}` record. -/
def dataset_summary (fs : String → Option (List Row)) (path : String) :
    SummaryOrError :=
  match load_aircraft_dataset fs path with
  | .error e => .err ("Failed to load dataset: " ++ e)
  | .ok df =>
    match compute_engine_degradation_result df with
    | .error e => .err ("Failed to compute metrics: " ++ e)
    | .ok s => .summary s

/-- The JSON body of `GET /dataset-metrics` (src/main.py lines 48-59). -/
inductive MetricsResponse : Type
  | unavailable (reason : String)
  | available (summary : SummaryOrError)
deriving DecidableEq

/-- `dataset_metrics()` (src/main.py lines 48-59): `datasetCsv` models
the `DATASET_CSV` environment variable, `hasUtils` whether the pandas
utilities imported, and the summary is the one computed at startup from
the configured path. -/
def dataset_metrics (datasetCsv : Option String) (hasUtils : Bool)
    (fs : String → Option (List Row)) : MetricsResponse :=
  match datasetCsv with
  | none => .unavailable "DATASET_CSV not set"
  | some p =>
    if hasUtils then .available (dataset_summary fs p)
    else .unavailable "dataset utilities not available (install pandas/numpy)"

/-- A pandas DataFrame value for the aliasing model: the original
columns plus the optional added `RUL` column. -/
structure PdFrame where
  rows : List Row
  rulCol : Option (List ℚ)
deriving DecidableEq

/-- `compute_engine_degradation` with the object graph made explicit: a
heap of frame values and a reference (index) to the caller's frame.
`df_enrich = df.copy()` allocates a fresh cell holding the same value;
`df_enrich['RUL'] = ...` updates only that fresh cell; the summary is
computed and the reference to the enriched copy is returned. -/
def compute_engine_degradation_heap (h : List PdFrame) (ref : Nat) :
    List PdFrame × Nat × DegSummary :=
  let df := (h.get? ref).getD ⟨[], none⟩
  let copyRef := h.length
  let h1 := h ++ [df]
  let enriched : PdFrame := ⟨df.rows, some (rulValues df.rows)⟩
  let h2 := h1.set copyRef enriched
  (h2, copyRef, compute_engine_degradation df.rows)

/-- The window after pushing `xs` into an empty 60-capacity deque is the
last 60 elements of `xs`. -/
theorem windowOfPushes_eq {α : Type} (xs : List α) :
    windowOfPushes xs = xs.drop (xs.length - 60) := by
  induction xs using List.reverseRecOn with
  | nil => rfl
  | append_singleton l x ih =>
    have step : windowOfPushes (l ++ [x]) = windowPush (windowOfPushes l) x := by
      simp [windowOfPushes, List.foldl_append]
    rw [step, ih]
    have hlen : (l ++ [x]).length = l.length + 1 := by simp
    rcases Nat.lt_or_ge l.length 60 with h | h
    · have h0 : l.length - 60 = 0 := by omega
      have h1 : (l ++ [x]).length - 60 = 0 := by omega
      rw [h0, List.drop_zero, h1, List.drop_zero, windowPush, if_pos h]
    · have hdlen : (l.drop (l.length - 60)).length = 60 := by
        rw [List.length_drop]; omega
      rw [windowPush, if_neg (by omega)]
      have hd : (l.drop (l.length - 60)).drop 1 = l.drop (l.length - 60 + 1) :=
        List.drop_drop 1 (l.length - 60) l
      have h1 : (l ++ [x]).length - 60 = l.length - 59 := by omega
      have hle : l.length - 59 ≤ l.length := by omega
      have happ : (l ++ [x]).drop (l.length - 59)
          = l.drop (l.length - 59) ++ [x] :=
        List.drop_append_of_le_length hle
      have harith : l.length - 60 + 1 = l.length - 59 := by omega
      rw [hd, harith, h1, happ]

/-- Claim C1: for every sequence of pushed samples, the 60-capacity
sample window has length `min(pushes_so_far, 60)`, and once more than 60
samples have been pushed its oldest (front) element is the
`(pushes_so_far - 60 + 1)`-th inserted sample, i.e. the one at 0-based
index `pushes_so_far - 60`. -/
theorem sample_window_invariant {α : Type} (xs : List α) :
    (windowOfPushes xs).length = min xs.length 60 ∧
    (60 < xs.length → (windowOfPushes xs).head? = xs[xs.length - 60]?) := by
  constructor
  · rw [windowOfPushes_eq, List.length_drop]; omega
  · intro _
    rw [windowOfPushes_eq, List.head?_drop]

/-- Witness for C1 at a concrete input: 61 pushes leave a window of
length 60 whose oldest element is the 2nd inserted sample. -/
theorem sample_window_invariant_witness :
    (windowOfPushes (List.range 61)).length = min (List.range 61).length 60 ∧
    (60 < (List.range 61).length ∧
      (windowOfPushes (List.range 61)).head? = (List.range 61)[1]?) := by
  refine ⟨(sample_window_invariant (List.range 61)).1, by decide, ?_⟩
  have h := (sample_window_invariant (List.range 61)).2 (by decide)
  simpa using h

/-- Folding the temperature sum from an already-failed accumulator stays
failed. -/
theorem sumTemps_foldl_none (l : List EngineData) :
    l.foldl
      (fun acc d =>
        acc.bind (fun a => match d.temp with
          | .num t => some (a + t)
          | .str _ => none))
      none = none := by
  induction l with
  | nil => rfl
  | cons x xs ih => simpa using ih

/-- If some element of the window has a non-numeric temperature, the
temperature sum raises (`none`), whatever the accumulator. -/
theorem sumTemps_go_none (l : List EngineData) (d : EngineData) (s : String)
    (hs : d.temp = .str s) :
    ∀ acc : Option ℚ, d ∈ l →
      l.foldl
        (fun acc d =>
          acc.bind (fun a => match d.temp with
            | .num t => some (a + t)
            | .str _ => none))
        acc = none := by
  induction l with
  | nil => intro acc hd; cases hd
  | cons x xs ih =>
    intro acc hd
    rcases List.mem_cons.mp hd with rfl | hmem
    · have hx : (acc.bind (fun a => match d.temp with
          | .num t => some (a + t)
          | .str _ => none)) = none := by
        cases acc <;> simp [hs]
      rw [List.foldl_cons, hx]
      exact sumTemps_foldl_none xs
    · rw [List.foldl_cons]
      exact ih _ hmem

/-- `sumTemps` fails on any window containing a non-numeric temperature. -/
theorem sumTemps_eq_none_of_mem_str {l : List EngineData} {d : EngineData}
    {s : String} (hd : d ∈ l) (hs : d.temp = .str s) : sumTemps l = none :=
  sumTemps_go_none l d s hs (some 0) hd

/-- The pushed sample is in the window after the push. -/
theorem mem_windowPush_self {α : Type} (w : List α) (x : α) :
    x ∈ windowPush w x := by
  unfold windowPush; split <;> simp

/-- The pushed sample is the last element of the window after the push. -/
theorem getLast?_windowPush {α : Type} (w : List α) (x : α) :
    (windowPush w x).getLast? = some x := by
  unfold windowPush; split <;> exact List.getLast?_concat _

/-- Claim C2 counterexample: the message `{"energy": 7}` (numeric energy,
no temperature field) terminates the session, but the shared state is
NOT what it was before the message: `engine_data["energy"] = msg["energy"]`
has already executed when `msg["temp"]` raises `KeyError`, so the energy
field is overwritten — a partial update. -/
theorem malformed_message_partial_update :
    websocket_step initial_engine_data [] ⟨some (.num 7), none⟩
      = (⟨.num 7, .num 300⟩, [], none) ∧
    (⟨.num 7, .num 300⟩ : EngineData) ≠ initial_engine_data := by
  constructor
  · rfl
  · intro h
    have h7 : (JVal.num 7) = .num 500 := congrArg EngineData.energy h
    have : (7 : ℚ) = 500 := by injection h7
    norm_num at this

/-- Claim C2 as amended: a session receiving a message whose
`temperature` field is absent or non-numeric terminates (no response is
sent), but the shared state may be partially updated: with the energy
field also absent the state is untouched; with a present energy field
and an absent temperature, the energy cell is overwritten while the
temperature cell and the window keep their old values; with a present
energy field and a non-numeric temperature, both cells are overwritten
and the malformed sample is pushed into the window before the fault. -/
theorem malformed_temperature_terminates (st : EngineData)
    (hist : List EngineData) (msg : WsMsg)
    (hmt : msg.temp = none ∨ ∃ s, msg.temp = some (.str s)) :
    (websocket_step st hist msg).2.2 = none ∧
    (msg.energy = none → websocket_step st hist msg = (st, hist, none)) ∧
    (∀ e, msg.energy = some e → msg.temp = none →
      websocket_step st hist msg = (⟨e, st.temp⟩, hist, none)) ∧
    (∀ e s, msg.energy = some e → msg.temp = some (.str s) →
      websocket_step st hist msg
        = (⟨e, .str s⟩, windowPush hist ⟨e, .str s⟩, none)) := by
  obtain ⟨oe, ot⟩ := msg
  cases oe with
  | none =>
    refine ⟨rfl, fun _ => rfl, ?_, ?_⟩
    · intro e he _; exact absurd he (by simp)
    · intro e s he _; exact absurd he (by simp)
  | some e0 =>
    rcases hmt with h | ⟨s, h⟩ <;> cases h
    · refine ⟨rfl, ?_, ?_, ?_⟩
      · intro he; exact absurd he (by simp)
      · intro e he _
        have : e0 = e := by injection he
        subst this; rfl
      · intro e s he hts; exact absurd hts (by simp)
    · have hsum : sumTemps (windowPush hist ⟨e0, .str s⟩) = none :=
        sumTemps_eq_none_of_mem_str (mem_windowPush_self hist ⟨e0, .str s⟩) rfl
      refine ⟨?_, ?_, ?_, ?_⟩
      · show (websocket_step st hist ⟨some e0, some (.str s)⟩).2.2 = none
        simp [websocket_step, hsum]
      · intro he; exact absurd he (by simp)
      · intro e he hts; exact absurd hts (by simp)
      · intro e s' he hts
        have he' : e0 = e := by injection he
        have hs' : JVal.str s = .str s' := by injection hts
        have hs'' : s = s' := by injection hs'
        subst he'; subst hs''
        simp [websocket_step, hsum]

/-- Witness for the amended C2 at a concrete input: `{"energy": 7}`
against the initial state terminates with the energy cell overwritten
and the window untouched. -/
theorem malformed_temperature_terminates_witness :
    (websocket_step initial_engine_data [] ⟨some (.num 7), none⟩).2.2 = none ∧
    websocket_step initial_engine_data [] ⟨some (.num 7), none⟩
      = (⟨.num 7, initial_engine_data.temp⟩, [], none) := by
  have h := malformed_temperature_terminates initial_engine_data []
    ⟨some (.num 7), none⟩ (Or.inl rfl)
  exact ⟨h.1, h.2.2.1 (.num 7) rfl rfl⟩

/-- Claim C3: whenever the websocket loop sends a response, its
`predicted_overheat` is the latest temperature plus 50 and its `alert`
holds exactly when `predicted_overheat > 550`; concretely, latest
temperature 320 yields prediction 370 with no alert and latest
temperature 510 yields prediction 560 with the alert raised. -/
theorem analytics_overheat_prediction :
    (∀ (st : EngineData) (hist : List EngineData) (msg : WsMsg)
      (st2 : EngineData) (hist2 : List EngineData) (resp : WsResponse),
      websocket_step st hist msg = (st2, hist2, some resp) →
      ∃ tn : ℚ, msg.temp = some (.num tn) ∧ resp.temp = .num tn ∧
        resp.predicted_overheat = tn + 50 ∧
        (resp.alert = true ↔ resp.predicted_overheat > 550)) ∧
    websocket_step initial_engine_data [] ⟨some (.num 500), some (.num 320)⟩
      = (⟨.num 500, .num 320⟩, [⟨.num 500, .num 320⟩],
          some ⟨.num 500, .num 320, 320, 370, false⟩) ∧
    websocket_step initial_engine_data [] ⟨some (.num 500), some (.num 510)⟩
      = (⟨.num 500, .num 510⟩, [⟨.num 500, .num 510⟩],
          some ⟨.num 500, .num 510, 510, 560, true⟩) := by
  refine ⟨?_, ?_, ?_⟩
  · intro st hist msg st2 hist2 resp h
    obtain ⟨oe, ot⟩ := msg
    cases oe with
    | none => simp [websocket_step] at h
    | some e =>
      cases ot with
      | none => simp [websocket_step] at h
      | some t =>
        cases hsum : sumTemps (windowPush hist ⟨e, t⟩) with
        | none => simp [websocket_step, hsum] at h
        | some s =>
          cases t with
          | str s2 => simp [websocket_step, hsum] at h
          | num tn =>
            simp only [websocket_step, hsum, Prod.mk.injEq, Option.some.injEq] at h
            refine ⟨tn, rfl, ?_, ?_, ?_⟩
            · rw [← h.2.2]
            · rw [← h.2.2]
            · rw [← h.2.2]
              simp [decide_eq_true_eq]
  · norm_num [websocket_step, windowPush, sumTemps, decide_eq_false_iff_not]
  · norm_num [websocket_step, windowPush, sumTemps, decide_eq_true_eq]

/-- Witness for C3 at a concrete input: the response to
`{"energy": 500, "temp": 320}` from the initial state. -/
theorem analytics_overheat_prediction_witness :
    ∃ tn : ℚ,
      (⟨some (.num 500), some (.num 320)⟩ : WsMsg).temp = some (.num tn) ∧
      (⟨.num 500, .num 320, 320, 370, false⟩ : WsResponse).temp = .num tn ∧
      (⟨.num 500, .num 320, 320, 370, false⟩ : WsResponse).predicted_overheat
        = tn + 50 ∧
      ((⟨.num 500, .num 320, 320, 370, false⟩ : WsResponse).alert = true ↔
        (⟨.num 500, .num 320, 320, 370, false⟩ :
          WsResponse).predicted_overheat > 550) :=
  analytics_overheat_prediction.1 initial_engine_data []
    ⟨some (.num 500), some (.num 320)⟩ _ _ _
    analytics_overheat_prediction.2.1

/-- `tempsOf` returns one temperature per window element. -/
theorem tempsOf_length {hist : List EngineData} {ts : List ℚ}
    (h : tempsOf hist = some ts) : hist.length = ts.length := by
  induction hist generalizing ts with
  | nil => simp [tempsOf] at h; subst h; rfl
  | cons d rest ih =>
    cases hq : d.temp with
    | str s => simp [tempsOf, hq] at h
    | num q =>
      cases hrest : tempsOf rest with
      | none => simp [tempsOf, hq, hrest] at h
      | some ts' =>
        simp only [tempsOf, hq, hrest] at h
        cases h
        simp [ih hrest]

/-- The Python temperature sum succeeds exactly when every stored
temperature is numeric, and then computes the sum of `tempsOf`. -/
theorem sumTemps_eq_tempsOf (hist : List EngineData) :
    sumTemps hist = (tempsOf hist).map List.sum := by
  have aux : ∀ (l : List EngineData) (a : ℚ),
      l.foldl
        (fun acc d =>
          acc.bind (fun x => match d.temp with
            | .num t => some (x + t)
            | .str _ => none))
        (some a) = (tempsOf l).map (fun ts => a + ts.sum) := by
    intro l
    induction l with
    | nil => intro a; simp [tempsOf]
    | cons d rest ih =>
      intro a
      cases hq : d.temp with
      | num q =>
        rw [List.foldl_cons]
        have hstep : (Option.bind (some a) (fun x => match d.temp with
            | .num t => some (x + t)
            | .str _ => none)) = some (a + q) := by simp [hq]
        rw [hstep, ih (a + q)]
        cases hrest : tempsOf rest with
        | none => simp [tempsOf, hq, hrest]
        | some ts' => simp [tempsOf, hq, hrest]; ring
      | str s =>
        rw [List.foldl_cons]
        have hstep : (Option.bind (some a) (fun x => match d.temp with
            | .num t => some (x + t)
            | .str _ => none)) = none := by simp [hq]
        rw [hstep, sumTemps_foldl_none]
        simp [tempsOf, hq]
  rw [sumTemps, aux hist 0]
  cases tempsOf hist <;> simp

/-- Claim C4: the reported `avg_temp` is the arithmetic mean of the
temperatures currently in the window — on the dashboard for every
non-empty numeric window and in every websocket response (where the
window is the one just pushed to) — and on an empty window the
dashboard defines it as 0. -/
theorem avg_temperature_is_mean :
    dashboard_avg [] = some 0 ∧
    (∀ (hist : List EngineData) (ts : List ℚ), tempsOf hist = some ts →
      hist ≠ [] → dashboard_avg hist = some (specAvgTemperature ts)) ∧
    (∀ (st : EngineData) (hist : List EngineData) (msg : WsMsg)
      (st2 : EngineData) (hist2 : List EngineData) (resp : WsResponse),
      websocket_step st hist msg = (st2, hist2, some resp) →
      ∃ ts : List ℚ, tempsOf hist2 = some ts ∧
        resp.avg_temp = specAvgTemperature ts) := by
  refine ⟨rfl, ?_, ?_⟩
  · intro hist ts hts hne
    rw [dashboard_avg, if_neg (by simpa using hne), sumTemps_eq_tempsOf, hts]
    simp [specAvgTemperature, tempsOf_length hts]
  · intro st hist msg st2 hist2 resp h
    obtain ⟨oe, ot⟩ := msg
    cases oe with
    | none => simp [websocket_step] at h
    | some e =>
      cases ot with
      | none => simp [websocket_step] at h
      | some t =>
        cases hsum : sumTemps (windowPush hist ⟨e, t⟩) with
        | none => simp [websocket_step, hsum] at h
        | some s =>
          cases t with
          | str s2 => simp [websocket_step, hsum] at h
          | num tn =>
            simp only [websocket_step, hsum, Prod.mk.injEq, Option.some.injEq] at h
            obtain ⟨ts, hts, hsum2⟩ : ∃ ts, tempsOf (windowPush hist ⟨e, .num tn⟩)
                = some ts ∧ s = ts.sum := by
              have := hsum
              rw [sumTemps_eq_tempsOf] at this
              cases hts : tempsOf (windowPush hist ⟨e, .num tn⟩) with
              | none => rw [hts] at this; simp at this
              | some ts =>
                rw [hts] at this; simp at this
                exact ⟨ts, rfl, this.symm⟩
            refine ⟨ts, by rw [← h.2.1]; exact hts, ?_⟩
            rw [← h.2.2]
            show s / ((windowPush hist ⟨e, .num tn⟩).length : ℚ)
              = specAvgTemperature ts
            rw [hsum2, specAvgTemperature,
              tempsOf_length hts]

/-- Witness for C4 at a concrete input: the window holding the single
sample `{energy: 500, temp: 320}` has dashboard average 320. -/
theorem avg_temperature_is_mean_witness :
    dashboard_avg [⟨.num 500, .num 320⟩]
      = some (specAvgTemperature [320]) :=
  avg_temperature_is_mean.2.1 [⟨.num 500, .num 320⟩] [320] rfl (by simp)

/-- For a message carrying both fields, the step overwrites
`engine_data` with the inbound sample and pushes that same sample,
whatever the outcome of the analytics. -/
theorem websocket_step_both_fields (st : EngineData) (hist : List EngineData)
    (e t : JVal) :
    (websocket_step st hist ⟨some e, some t⟩).1 = ⟨e, t⟩ ∧
    (websocket_step st hist ⟨some e, some t⟩).2.1 = windowPush hist ⟨e, t⟩ := by
  cases hsum : sumTemps (windowPush hist ⟨e, t⟩) with
  | none => cases t <;> simp [websocket_step, hsum]
  | some s => cases t <;> simp [websocket_step, hsum]

/-- Unfolding one step of the message fold. -/
theorem run_messages_cons (st : EngineData) (hist : List EngineData)
    (m : WsMsg) (ms : List WsMsg) :
    run_messages st hist (m :: ms)
      = run_messages (websocket_step st hist m).1
          (websocket_step st hist m).2.1 ms := rfl

/-- Claim C5: an accepted sample overwrites `engine_data` first and is
then pushed, so after the step the window's last element is exactly the
new `engine_data`; consequently, along any run of messages that all
carry both fields, every inter-step observation point sees a window
whose last element (when the window is non-empty) equals the current
sample. -/
theorem current_matches_window_last :
    (∀ (st : EngineData) (hist : List EngineData) (e t : JVal),
      (websocket_step st hist ⟨some e, some t⟩).1 = ⟨e, t⟩ ∧
      (websocket_step st hist ⟨some e, some t⟩).2.1 = windowPush hist ⟨e, t⟩ ∧
      (websocket_step st hist ⟨some e, some t⟩).2.1.getLast?
        = some (websocket_step st hist ⟨some e, some t⟩).1) ∧
    (∀ msgs : List WsMsg,
      (∀ m ∈ msgs, (∃ e, m.energy = some e) ∧ (∃ t, m.temp = some t)) →
      (run_messages initial_engine_data [] msgs).2 = [] ∨
      (run_messages initial_engine_data [] msgs).2.getLast?
        = some (run_messages initial_engine_data [] msgs).1) := by
  constructor
  · intro st hist e t
    obtain ⟨h1, h2⟩ := websocket_step_both_fields st hist e t
    exact ⟨h1, h2, by rw [h1, h2, getLast?_windowPush]⟩
  · have main : ∀ (msgs : List WsMsg) (st : EngineData) (hist : List EngineData),
        (∀ m ∈ msgs, (∃ e, m.energy = some e) ∧ (∃ t, m.temp = some t)) →
        (hist = [] ∨ hist.getLast? = some st) →
        (run_messages st hist msgs).2 = [] ∨
        (run_messages st hist msgs).2.getLast?
          = some (run_messages st hist msgs).1 := by
      intro msgs
      induction msgs with
      | nil => intro st hist _ hinv; exact hinv
      | cons m ms ih =>
        intro st hist hwf hinv
        obtain ⟨⟨e, he⟩, ⟨t, ht⟩⟩ := hwf m (List.mem_cons_self m ms)
        obtain ⟨oe, ot⟩ := m
        cases he; cases ht
        rw [run_messages_cons]
        apply ih _ _ (fun m hm => hwf m (List.mem_cons_of_mem _ hm))
        right
        obtain ⟨h1, h2⟩ := websocket_step_both_fields st hist e t
        rw [h1, h2, getLast?_windowPush]
    intro msgs hwf
    exact main msgs initial_engine_data [] hwf (Or.inl rfl)

/-- Witness for C5 at a concrete input: one accepted sample into the
initial state. -/
theorem current_matches_window_last_witness :
    (run_messages initial_engine_data [] [⟨some (.num 10), some (.num 400)⟩]).2
      = [] ∨
    (run_messages initial_engine_data []
        [⟨some (.num 10), some (.num 400)⟩]).2.getLast?
      = some (run_messages initial_engine_data []
          [⟨some (.num 10), some (.num 400)⟩]).1 :=
  current_matches_window_last.2 [⟨some (.num 10), some (.num 400)⟩]
    (by simp)

/-- Claim C6 counterexample: after the accepted sample
`{"energy": 10, "temp": 400}` followed by the malformed message
`{"energy": 7}` (no temperature), `GET /engine` returns
`{energy: 7, temp: 400}`, which is not the most recently accepted
sample `{energy: 10, temp: 400}` — the malformed message partially
overwrote the energy cell before failing. -/
theorem engine_endpoint_stale_after_malformed :
    get_engine_data (run_messages initial_engine_data []
        [⟨some (.num 10), some (.num 400)⟩, ⟨some (.num 7), none⟩]).1
      = ⟨.num 7, .num 400⟩ ∧
    (⟨.num 7, .num 400⟩ : EngineData) ≠ (⟨.num 10, .num 400⟩ : EngineData) := by
  constructor
  · rfl
  · intro h
    have h7 : (JVal.num 7) = .num 10 := congrArg EngineData.energy h
    have : (7 : ℚ) = 10 := by injection h7
    norm_num at this

/-- Claim C6 as amended: `GET /engine` returns `engine_data` and never
fails; before any message this is the initial value
`{energy: 500, temperature: 300}`, and after any run of messages whose
most recent message carried both an `energy` and a `temp` field, it is
exactly that message's sample.  (When the most recent message was
malformed, the returned value can instead reflect a partial update —
see the counterexample.) -/
theorem engine_endpoint_returns_current :
    get_engine_data (run_messages initial_engine_data [] []).1
      = initial_engine_data ∧
    initial_engine_data = ⟨.num 500, .num 300⟩ ∧
    (∀ (msgs : List WsMsg) (st : EngineData) (hist : List EngineData)
      (m : WsMsg) (e t : JVal),
      msgs.getLast? = some m → m.energy = some e → m.temp = some t →
      get_engine_data (run_messages st hist msgs).1 = ⟨e, t⟩) := by
  refine ⟨rfl, rfl, ?_⟩
  intro msgs
  induction msgs with
  | nil => intro st hist m e t hlast; simp at hlast
  | cons m0 ms ih =>
    intro st hist m e t hlast he ht
    cases ms with
    | nil =>
      have hm : m0 = m := by simpa using hlast
      rw [hm, run_messages_cons]
      obtain ⟨om, ot⟩ := m
      cases he; cases ht
      exact (websocket_step_both_fields st hist e t).1
    | cons m1 ms' =>
      rw [List.getLast?_cons_cons] at hlast
      rw [run_messages_cons]
      exact ih _ _ m e t hlast he ht

/-- Witness for the amended C6 at a concrete input: after the single
accepted sample `{"energy": 10, "temp": 400}`, `GET /engine` returns
exactly that sample. -/
theorem engine_endpoint_returns_current_witness :
    get_engine_data (run_messages initial_engine_data []
        [⟨some (.num 10), some (.num 400)⟩]).1
      = ⟨.num 10, .num 400⟩ :=
  engine_endpoint_returns_current.2.2 [⟨some (.num 10), some (.num 400)⟩]
    initial_engine_data [] ⟨some (.num 10), some (.num 400)⟩
    (.num 10) (.num 400) rfl rfl rfl

/-- The worked CMAPSS-style example of the spec: rows
`(unit, cycle, sensor)` = `[(1,1,10), (1,2,12), (1,3,14), (2,1,5)]`. -/
def cmapssExample : List Row :=
  [⟨1, 1, [10]⟩, ⟨1, 2, [12]⟩, ⟨1, 3, [14]⟩, ⟨2, 1, [5]⟩]

/-- The groupby maximum always exists at the unit of a row of the frame
and bounds that row's cycle. -/
theorem maxCyclePerUnit_of_mem {rows : List Row} {r : Row} (hr : r ∈ rows) :
    ∃ m : ℚ, maxCyclePerUnit rows r.unit = some m ∧ r.cycle ≤ m := by
  have hmem : r.cycle ∈ (rows.filter (fun x => x.unit = r.unit)).map Row.cycle :=
    List.mem_map_of_mem Row.cycle (List.mem_filter.mpr ⟨hr, by simp⟩)
  cases hmax : ((rows.filter (fun x => x.unit = r.unit)).map Row.cycle).maximum with
  | bot =>
    have : ((rows.filter (fun x => x.unit = r.unit)).map Row.cycle) = [] :=
      List.maximum_eq_none.mp hmax
    rw [this] at hmem
    cases hmem
  | coe m =>
    exact ⟨m, hmax, List.le_maximum_of_mem hmem hmax⟩

/-- Claim C7: every row's RUL is the maximum cycle of its unit minus the
row's cycle — hence non-negative, and zero exactly at a unit's last
observed cycle — and on the worked example
`[(1,1,10), (1,2,12), (1,3,14), (2,1,5)]` the RUL column is
`[2, 1, 0, 0]`, the unit count 2, and the mean sensor-degradation slope
`2` (from unit 1's single sensor; unit 2 has only one row and is
skipped). -/
theorem degradation_rul_and_example :
    (∀ (rows : List Row) (r : Row), r ∈ rows →
      ∃ m : ℚ, maxCyclePerUnit rows r.unit = some m ∧ r.cycle ≤ m ∧
        rulOfRow rows r = m - r.cycle ∧ 0 ≤ rulOfRow rows r ∧
        (r.cycle = m → rulOfRow rows r = 0)) ∧
    rulValues cmapssExample = [2, 1, 0, 0] ∧
    (compute_engine_degradation cmapssExample).units = 2 ∧
    (compute_engine_degradation cmapssExample).mean_sensor_degradation_slope
      = some 2 := by
  have h1 : maxCyclePerUnit cmapssExample 1 = some 3 := by decide
  have h2 : maxCyclePerUnit cmapssExample 2 = some 1 := by decide
  refine ⟨?_, ?_, ?_, ?_⟩
  · intro rows r hr
    obtain ⟨m, hm, hle⟩ := maxCyclePerUnit_of_mem hr
    have hval : rulOfRow rows r = m - r.cycle := by
      rw [rulOfRow, hm]; rfl
    refine ⟨m, hm, hle, hval, ?_, ?_⟩
    · rw [hval]; exact sub_nonneg.mpr hle
    · intro hc; rw [hval, hc, sub_self]
  · have hshape : rulValues cmapssExample
        = [rulOfRow cmapssExample ⟨1, 1, [10]⟩,
           rulOfRow cmapssExample ⟨1, 2, [12]⟩,
           rulOfRow cmapssExample ⟨1, 3, [14]⟩,
           rulOfRow cmapssExample ⟨2, 1, [5]⟩] := rfl
    rw [hshape]
    simp only [rulOfRow]
    norm_num [h1, h2]
  · decide
  · have hds : degradationSlopes cmapssExample (dfNumSensors cmapssExample)
        = [olsSlope [1, 2, 3] [10, 12, 14]] := rfl
    have hmean : (compute_engine_degradation
        cmapssExample).mean_sensor_degradation_slope
        = some (meanQ [olsSlope [1, 2, 3] [10, 12, 14]]) := by
      rw [compute_engine_degradation]
      simp only [hds]
      rfl
    rw [hmean]
    norm_num [meanQ, olsSlope]

/-- Witness for C7 at a concrete input: the first example row belongs to
the frame, its unit's maximum cycle is 3, and its RUL facts follow. -/
theorem degradation_rul_and_example_witness :
    ∃ m : ℚ,
      maxCyclePerUnit cmapssExample (Row.mk 1 1 [10]).unit = some m ∧
      (Row.mk 1 1 [10]).cycle ≤ m ∧
      rulOfRow cmapssExample ⟨1, 1, [10]⟩ = m - (Row.mk 1 1 [10]).cycle ∧
      0 ≤ rulOfRow cmapssExample ⟨1, 1, [10]⟩ ∧
      ((Row.mk 1 1 [10]).cycle = m →
        rulOfRow cmapssExample ⟨1, 1, [10]⟩ = 0) :=
  degradation_rul_and_example.1 cmapssExample ⟨1, 1, [10]⟩ (by decide)

/-- Claim C8: the batch summary computation is total — it yields either
a summary or a structured error record; a missing file surfaces as the
captured load error, a computation fault as the captured compute error,
and the metrics endpoint wraps whatever the summary produced in a
well-formed `{available: true, summary: ...}` response. -/
theorem dataset_summary_never_raises :
    (∀ (fs : String → Option (List Row)) (path : String),
      (∃ s, dataset_summary fs path = .summary s) ∨
      (∃ m, dataset_summary fs path = .err m)) ∧
    (∀ (fs : String → Option (List Row)) (path : String), fs path = none →
      dataset_summary fs path
        = .err ("Failed to load dataset: " ++ ("File not found: " ++ path))) ∧
    (∀ (fs : String → Option (List Row)) (path : String) (df : List Row)
      (e : String), fs path = some df →
      compute_engine_degradation_result df = .error e →
      dataset_summary fs path = .err ("Failed to compute metrics: " ++ e)) ∧
    (∀ (csv : String) (fs : String → Option (List Row)),
      dataset_metrics (some csv) true fs
        = .available (dataset_summary fs csv)) := by
  refine ⟨?_, ?_, ?_, ?_⟩
  · intro fs path
    cases h : dataset_summary fs path with
    | summary s => exact Or.inl ⟨s, rfl⟩
    | err m => exact Or.inr ⟨m, rfl⟩
  · intro fs path hfs
    simp [dataset_summary, load_aircraft_dataset, hfs]
  · intro fs path df e hfs hcomp
    simp [dataset_summary, load_aircraft_dataset, hfs, hcomp]
  · intro csv fs
    rfl

/-- Witness for C8 at concrete inputs: an absent file and an empty
(zero-row) frame each produce the corresponding error record. -/
theorem dataset_summary_never_raises_witness :
    dataset_summary (fun _ => none) "PM_train.txt"
      = .err ("Failed to load dataset: "
          ++ ("File not found: " ++ "PM_train.txt")) ∧
    dataset_summary (fun _ => some []) "empty.csv"
      = .err ("Failed to compute metrics: "
          ++ "zero-size array to reduction operation") :=
  ⟨dataset_summary_never_raises.2.1 (fun _ => none) "PM_train.txt" rfl,
   dataset_summary_never_raises.2.2.1 (fun _ => some []) "empty.csv" [] _
     rfl rfl⟩

/-- Claim C9: both divisions over the window are guarded by
non-emptiness: the websocket path divides by the length of the window
it has just pushed to — always at least 1 — and the dashboard divides
only in the branch where the window is non-empty (the empty branch sets
the average to the literal 0). -/
theorem window_division_guarded :
    (∀ (hist : List EngineData) (x : EngineData),
      0 < (windowPush hist x).length) ∧
    (∀ (st : EngineData) (hist : List EngineData) (msg : WsMsg)
      (st2 : EngineData) (hist2 : List EngineData) (resp : WsResponse),
      websocket_step st hist msg = (st2, hist2, some resp) →
      0 < hist2.length) ∧
    dashboard_avg [] = some 0 ∧
    (∀ hist : List EngineData, hist.isEmpty = false → 0 < hist.length) := by
  have hpush : ∀ (hist : List EngineData) (x : EngineData),
      0 < (windowPush hist x).length := by
    intro hist x
    rw [windowPush]
    split <;> simp
  refine ⟨hpush, ?_, rfl, ?_⟩
  · intro st hist msg st2 hist2 resp h
    obtain ⟨oe, ot⟩ := msg
    cases oe with
    | none => simp [websocket_step] at h
    | some e =>
      cases ot with
      | none => simp [websocket_step] at h
      | some t =>
        cases hsum : sumTemps (windowPush hist ⟨e, t⟩) with
        | none => simp [websocket_step, hsum] at h
        | some s =>
          cases t with
          | str s2 => simp [websocket_step, hsum] at h
          | num tn =>
            simp only [websocket_step, hsum, Prod.mk.injEq] at h
            rw [← h.2.1]
            exact hpush hist ⟨e, .num tn⟩
  · intro hist hne
    cases hist with
    | nil => simp at hne
    | cons d rest => simp

/-- Witness for C9 at concrete inputs: pushing one sample into the empty
window gives a positive length, and a one-sample window is non-empty
with positive length. -/
theorem window_division_guarded_witness :
    0 < (windowPush ([] : List EngineData) ⟨.num 500, .num 320⟩).length ∧
    0 < ([(⟨.num 500, .num 320⟩ : EngineData)] : List EngineData).length :=
  ⟨window_division_guarded.1 [] ⟨.num 500, .num 320⟩,
   window_division_guarded.2.2.2 [⟨.num 500, .num 320⟩] rfl⟩

/-- Claim C10: `compute_engine_degradation` works on a copy of its
input frame — after the call the caller's frame cell holds exactly the
value it held before, the returned reference is a different cell, that
cell holds the input rows enriched with the `RUL` column, and the
summary is computed from the (unchanged) input rows. -/
theorem compute_degradation_no_mutation (h : List PdFrame) (ref : Nat)
    (df : PdFrame) (hdf : h.get? ref = some df) :
    (compute_engine_degradation_heap h ref).1.get? ref = some df ∧
    (compute_engine_degradation_heap h ref).2.1 ≠ ref ∧
    (compute_engine_degradation_heap h ref).1.get?
        (compute_engine_degradation_heap h ref).2.1
      = some ⟨df.rows, some (rulValues df.rows)⟩ ∧
    (compute_engine_degradation_heap h ref).2.2
      = compute_engine_degradation df.rows := by
  have hlt : ref < h.length := by
    by_contra hge
    rw [List.get?_eq_getElem?, List.getElem?_eq_none (by omega)] at hdf
    cases hdf
  have hne : h.length ≠ ref := by omega
  refine ⟨?_, by simpa [compute_engine_degradation_heap] using hne, ?_, ?_⟩
  · show ((h ++ [(h.get? ref).getD ⟨[], none⟩]).set h.length _).get? ref = some df
    rw [List.get?_eq_getElem?, List.getElem?_set_ne hne,
      List.getElem?_append_left hlt, ← List.get?_eq_getElem?]
    exact hdf
  · show ((h ++ [(h.get? ref).getD ⟨[], none⟩]).set h.length
        ⟨((h.get? ref).getD ⟨[], none⟩).rows,
          some (rulValues ((h.get? ref).getD ⟨[], none⟩).rows)⟩).get? h.length
      = some ⟨df.rows, some (rulValues df.rows)⟩
    rw [hdf]
    rw [List.get?_eq_getElem?, List.getElem?_set_self (by simp)]
    rfl
  · show compute_engine_degradation ((h.get? ref).getD ⟨[], none⟩).rows
      = compute_engine_degradation df.rows
    rw [hdf]
    rfl

/-- Witness for C10 at a concrete input: a one-cell heap holding the
example frame. -/
theorem compute_degradation_no_mutation_witness :
    (compute_engine_degradation_heap [⟨cmapssExample, none⟩] 0).1.get? 0
      = some ⟨cmapssExample, none⟩ ∧
    (compute_engine_degradation_heap [⟨cmapssExample, none⟩] 0).2.1 ≠ 0 ∧
    (compute_engine_degradation_heap [⟨cmapssExample, none⟩] 0).1.get?
        (compute_engine_degradation_heap [⟨cmapssExample, none⟩] 0).2.1
      = some ⟨cmapssExample, some (rulValues cmapssExample)⟩ ∧
    (compute_engine_degradation_heap [⟨cmapssExample, none⟩] 0).2.2
      = compute_engine_degradation cmapssExample :=
  compute_degradation_no_mutation [⟨cmapssExample, none⟩] 0
    ⟨cmapssExample, none⟩ rfl
